import Mathlib

/-!
Shallow embedding of the TPS3424EVM interlock controller sketch
(src/main.cpp): an ESP32 Arduino program that watches a power-good
("RESET", active HIGH) level line and a fault ("INT", active LOW,
falling-edge) line from a TPS3424 voltage supervisor, and drives a
KILL output (active LOW; idle is realized as input-with-pull-up).

Timestamps are values of the 32-bit `millis()` counter.  A time instant
is an arbitrary `Nat` (the true elapsed time since boot); it is reduced
modulo `2^32` wherever the C++ code stores or subtracts a `uint32_t`,
so counter rollover is represented faithfully.

Serial diagnostics are modelled as an abstract log (a list of events,
most recent first); the textual formatting itself is not modelled.
-/

namespace TPS3424

/-- Modulus of the 32-bit millisecond counter. -/
def M : Nat := 4294967296

/-- Wrapping `uint32_t` subtraction `a - b`, exactly as C computes it. -/
def wsub (a b : Nat) : Nat := (a % M + (M - b % M)) % M

/-- Minimum time KILL stays asserted before the RESET-low release path applies. -/
def KILL_MIN_HOLD_MS : Nat := 800

/-- Absolute cap on the KILL hold duration. -/
def KILL_TIMEOUT_MS : Nat := 3000

/-- Minimum spacing between accepted INT falling edges. -/
def INT_DEBOUNCE_MS : Nat := 30

/-- Declared in the source as a startup-guard duration, but never read by
any function of this program variant. -/
def STARTUP_GUARD_MS : Nat := 300

/-- Required continuous RESET-high duration before an INT edge qualifies. -/
def RESET_HIGH_MIN_MS_BEFORE_INT : Nat := 80

/-- Electrical configuration of the KILL pin.  The source only ever puts
the pin in `inputPullup` (killIdle) or `outputLow` (killAssert); the
other configurations exist so that "never driven high" is a statement
about a genuinely larger configuration space. -/
inductive PinCfg
  | inputPullup
  | inputFloating
  | outputLow
  | outputHigh
deriving DecidableEq, Repr

/-- Abstract records of the Serial diagnostic lines. -/
inductive LogEvent
  | startupNote (resetLevel intLevel : Bool)
  | resetChange (level : Bool)
  | intEvent (intAt since : Nat) (doKill : Bool)
  | killAssertNote
  | ignoredNote
  | killReleased (now elapsed : Nat) (resetLevel : Bool)
  | warnStuckReset
  | status (t : Nat)
deriving DecidableEq, Repr

/-- Global state of the sketch: the `volatile` ISR-shared variables, the
loop-owned variables, the static `last` inside `onIntFalling`, the KILL
pin configuration and the diagnostic log. -/
structure St where
  intPending : Bool
  intStampMs : Nat
  resetHighSinceMs : Nat
  doKillFlag : Bool
  isrLast : Nat
  lastReset : Bool
  killActive : Bool
  killAssertAt : Nat
  lastReportMs : Nat
  killPin : PinCfg
  led : Bool
  log : List LogEvent
deriving DecidableEq, Repr

/-- Debounce test of `onIntFalling`: `now - last < INT_DEBOUNCE_MS` in
`uint32_t` arithmetic. -/
def debounceReject (now last : Nat) : Bool :=
  decide (wsub now last < INT_DEBOUNCE_MS)

/-- The qualification test of `onIntFalling`:
`(since != 0) && (now - since >= RESET_HIGH_MIN_MS_BEFORE_INT)`.
A stored timestamp of `0` is the "RESET has not risen" sentinel. -/
def highLongEnough (now since : Nat) : Bool :=
  (since != 0) && decide (RESET_HIGH_MIN_MS_BEFORE_INT ≤ wsub now since)

/-- `killIdle()`: release the KILL pin to input with pull-up. -/
def killIdle (s : St) : St := { s with killPin := PinCfg.inputPullup }

/-- `killAssert()`: drive the KILL pin low. -/
def killAssert (s : St) : St := { s with killPin := PinCfg.outputLow }

/-- The INT falling-edge ISR `onIntFalling`, invoked at true time `now`
(the ISR sees `millis() = now % M`). -/
def onIntFalling (s : St) (now : Nat) : St :=
  let n := now % M
  if debounceReject n s.isrLast then s
  else
    { s with isrLast := n,
             doKillFlag := highLongEnough n s.resetHighSinceMs,
             intStampMs := n,
             intPending := true }

/-- The state established by `setup()`, given the time of the
`digitalRead(PIN_RESET)` sample and the two input levels read there. -/
def setupState (now : Nat) (resetLevel intLevel : Bool) : St :=
  { intPending := false
    intStampMs := 0
    resetHighSinceMs := if resetLevel then now % M else 0
    doKillFlag := false
    isrLast := 0
    lastReset := resetLevel
    killActive := false
    killAssertAt := 0
    lastReportMs := 0
    killPin := PinCfg.inputPullup
    led := resetLevel
    log := [LogEvent.startupNote resetLevel intLevel] }

/-- Loop section 1: RESET level monitoring, LED update and the rise/fall
timestamping of `g_resetHighSinceMs`. -/
def phase1 (s : St) (now : Nat) (resetLevel : Bool) : St :=
  if resetLevel ≠ s.lastReset then
    { s with lastReset := resetLevel,
             led := resetLevel,
             resetHighSinceMs := if resetLevel then now % M else 0,
             log := LogEvent.resetChange resetLevel :: s.log }
  else s

/-- Loop section 2: consume a pending INT event (the `noInterrupts` /
`interrupts` critical section is one atomic step here; its fine-grained
interleaving with the ISR is modelled separately below) and, if the event
qualifies and KILL is idle, assert KILL.  `now` is the `millis()` call
that stamps `g_killAssertAt`. -/
def phase2 (s : St) (now : Nat) : St :=
  if s.intPending then
    let doKill := s.doKillFlag
    let intAt := s.intStampMs
    let since := s.resetHighSinceMs
    let s1 : St :=
      { s with intPending := false,
               log := LogEvent.intEvent intAt since doKill :: s.log }
    if doKill && !s1.killActive then
      let s2 := killAssert { s1 with log := LogEvent.killAssertNote :: s1.log }
      { s2 with killActive := true, killAssertAt := now % M }
    else if !doKill then
      { s1 with log := LogEvent.ignoredNote :: s1.log }
    else s1
  else s

/-- The release condition of loop section 3:
`(resetLow && elapsed >= KILL_MIN_HOLD_MS) || (elapsed >= KILL_TIMEOUT_MS)`
with `elapsed = millis() - g_killAssertAt` in `uint32_t` arithmetic. -/
def killReleaseDue (now assertAt : Nat) (resetLow : Bool) : Bool :=
  (resetLow && decide (KILL_MIN_HOLD_MS ≤ wsub now assertAt))
    || decide (KILL_TIMEOUT_MS ≤ wsub now assertAt)

/-- Loop section 3: KILL hold/release logic.  `resetLevel` is the
`digitalRead(PIN_RESET)` sample of this section. -/
def phase3 (s : St) (now : Nat) (resetLevel : Bool) : St :=
  if s.killActive then
    let elapsed := wsub now s.killAssertAt
    let resetLow := !resetLevel
    if killReleaseDue now s.killAssertAt resetLow then
      let s1 := killIdle s
      let s2 :=
        { s1 with log := LogEvent.killReleased (now % M) elapsed resetLevel :: s1.log }
      let s3 :=
        if !resetLow then { s2 with log := LogEvent.warnStuckReset :: s2.log } else s2
      { s3 with killActive := false }
    else s
  else s

/-- The periodic-report test of loop section 4:
`millis() - g_lastReportMs >= 1000` in `uint32_t` arithmetic. -/
def reportDue (now lastReport : Nat) : Bool :=
  decide (1000 ≤ wsub now lastReport)

/-- Loop section 4: the once-per-second status line. -/
def phase4 (s : St) (now : Nat) : St :=
  if reportDue now s.lastReportMs then
    { s with lastReportMs := now % M, log := LogEvent.status (now % M) :: s.log }
  else s

/-- One atomic step of the system: either the ISR fires, or the loop runs
one of its four sections.  Each carries the true time of its `millis()`
call(s), and the level-reading sections carry the sampled RESET level. -/
inductive Step
  | isr (now : Nat)
  | p1 (now : Nat) (resetLevel : Bool)
  | p2 (now : Nat)
  | p3 (now : Nat) (resetLevel : Bool)
  | p4 (now : Nat)
deriving DecidableEq, Repr

/-- Apply one step. -/
def applyStep (s : St) : Step → St
  | Step.isr now => onIntFalling s now
  | Step.p1 now r => phase1 s now r
  | Step.p2 now => phase2 s now
  | Step.p3 now r => phase3 s now r
  | Step.p4 now => phase4 s now

/-- Run a list of steps from a state. -/
def run (s : St) (l : List Step) : St := l.foldl applyStep s

/-!
Fine-grained model of the event handoff (the critical section of loop section 2, its
section), for the atomic-snapshot property.  The detector-shared state is
augmented with ghost source tags: every accepted ISR write stamps its
fields (`doKillFlag`, `intStampMs`) with a fresh event number, so a
consumer observation is coherent exactly when the flag it read and the
timestamp it read carry the same tag.  `intEnabled` models the
`noInterrupts()` / `interrupts()` window: while it is false, an arriving
edge cannot run the ISR (hardware pends it; delivery at re-enable is the
same as an ISR step scheduled right after `enableInts`). -/
structure DSt where
  intPending : Bool
  intStampMs : Nat
  doKillFlag : Bool
  resetHighSinceMs : Nat
  isrLast : Nat
  eventCtr : Nat
  flagSrc : Nat
  stampSrc : Nat
  intEnabled : Bool
  regFlag : Bool
  regFlagSrc : Nat
  regStamp : Nat
  regStampSrc : Nat
deriving DecidableEq, Repr

/-- The ISR in the fine-grained model: identical decision logic to
`onIntFalling`, a no-op while interrupts are disabled, and ghost-tagging
both written fields with the same fresh event number. -/
def isrG (s : DSt) (now : Nat) : DSt :=
  if s.intEnabled = false then s
  else
    let n := now % M
    if debounceReject n s.isrLast then s
    else
      { s with isrLast := n,
               doKillFlag := highLongEnough n s.resetHighSinceMs,
               intStampMs := n,
               intPending := true,
               eventCtr := s.eventCtr + 1,
               flagSrc := s.eventCtr + 1,
               stampSrc := s.eventCtr + 1 }

/-- Micro-steps of the consume sequence: an asynchronous ISR arrival, or
one of the individual operations the loop performs in
`noInterrupts(); doKill = g_doKillFlag; intAt = g_intStampMs;
g_intPending = false; interrupts()`. -/
inductive MStep
  | isr (now : Nat)
  | disableInts
  | readFlag
  | readStamp
  | clearPending
  | enableInts
deriving DecidableEq, Repr

/-- Apply one micro-step.  The two reads latch the shared fields (and
their ghost tags) into the local copies held by the loop. -/
def mstep (s : DSt) : MStep → DSt
  | MStep.isr now => isrG s now
  | MStep.disableInts => { s with intEnabled := false }
  | MStep.readFlag => { s with regFlag := s.doKillFlag, regFlagSrc := s.flagSrc }
  | MStep.readStamp => { s with regStamp := s.intStampMs, regStampSrc := s.stampSrc }
  | MStep.clearPending => { s with intPending := false }
  | MStep.enableInts => { s with intEnabled := true }

/-- Run a list of micro-steps. -/
def mrun (s : DSt) (l : List MStep) : DSt := l.foldl mstep s

/-- The consume sequence of loop section 2, with arbitrary ISR arrivals
`a` before the critical section, `b` and `c` arriving inside it (between
the individual operations), and `d` after it. -/
def consumeSchedule (a b c d : List Nat) : List MStep :=
  a.map MStep.isr ++ (MStep.disableInts ::
    (b.map MStep.isr ++ (MStep.readFlag ::
      (c.map MStep.isr ++ (MStep.readStamp :: MStep.clearPending :: MStep.enableInts ::
        d.map MStep.isr)))))

/-- Ghost coherence: the qualify flag and the timestamp currently in the
mailbox were written by the same event. -/
def Coherent (s : DSt) : Prop := s.flagSrc = s.stampSrc

/-- A concrete post-setup state: RESET sampled high at t = 10. -/
def sampleIdle : St := setupState 10 true false

/-- A concrete state with a qualifying event pending and KILL idle:
fault edge at t = 100, 90 ms after the RESET rise. -/
def samplePending : St := onIntFalling sampleIdle 100

/-- A concrete state with KILL asserted at t = 100. -/
def sampleActive : St := phase2 samplePending 100

/-! Helper lemmas about the two branches of each operation. -/

theorem onIntFalling_rejected (s : St) (now : Nat)
    (h : debounceReject (now % M) s.isrLast = true) :
    onIntFalling s now = s := by
  unfold onIntFalling
  simp [h]

theorem onIntFalling_accepted (s : St) (now : Nat)
    (h : debounceReject (now % M) s.isrLast = false) :
    onIntFalling s now =
      { s with isrLast := now % M,
               doKillFlag := highLongEnough (now % M) s.resetHighSinceMs,
               intStampMs := now % M,
               intPending := true } := by
  unfold onIntFalling
  simp [h]

theorem phase2_no_event (s : St) (now : Nat) (h : s.intPending = false) :
    phase2 s now = s := by
  unfold phase2
  simp [h]

theorem phase2_assert (s : St) (now : Nat) (hp : s.intPending = true)
    (hq : s.doKillFlag = true) (hi : s.killActive = false) :
    phase2 s now =
      { s with intPending := false,
               killActive := true,
               killAssertAt := now % M,
               killPin := PinCfg.outputLow,
               log := LogEvent.killAssertNote ::
                 LogEvent.intEvent s.intStampMs s.resetHighSinceMs true :: s.log } := by
  unfold phase2 killAssert
  simp [hp, hq, hi]

theorem phase2_ignored (s : St) (now : Nat) (hp : s.intPending = true)
    (hq : s.doKillFlag = false) :
    phase2 s now =
      { s with intPending := false,
               log := LogEvent.ignoredNote ::
                 LogEvent.intEvent s.intStampMs s.resetHighSinceMs false :: s.log } := by
  unfold phase2
  simp [hp, hq]

theorem phase2_already_active (s : St) (now : Nat) (hp : s.intPending = true)
    (hq : s.doKillFlag = true) (hi : s.killActive = true) :
    phase2 s now =
      { s with intPending := false,
               log := LogEvent.intEvent s.intStampMs s.resetHighSinceMs true :: s.log } := by
  unfold phase2
  simp [hp, hq, hi]

theorem phase3_idle (s : St) (now : Nat) (r : Bool) (h : s.killActive = false) :
    phase3 s now r = s := by
  unfold phase3
  simp [h]

theorem phase3_hold (s : St) (now : Nat) (r : Bool) (h : s.killActive = true)
    (hd : killReleaseDue now s.killAssertAt (!r) = false) :
    phase3 s now r = s := by
  unfold phase3
  simp [h, hd]

theorem phase3_release (s : St) (now : Nat) (r : Bool) (h : s.killActive = true)
    (hd : killReleaseDue now s.killAssertAt (!r) = true) :
    phase3 s now r =
      { s with killPin := PinCfg.inputPullup,
               killActive := false,
               log := (if r then [LogEvent.warnStuckReset] else [])
                 ++ LogEvent.killReleased (now % M) (wsub now s.killAssertAt) r :: s.log } := by
  unfold phase3 killIdle
  cases r <;> simp only [Bool.not_false, Bool.not_true] at hd <;> simp [h, hd]

/-! Claim theorems. -/

/-- Claim C1: for every accepted fault edge at time `now`, the published
published qualifies flag of the event (`g_doKillFlag`) is true iff a power-good rise
timestamp is recorded (`g_resetHighSinceMs` is not the `0` sentinel) and
`now` minus that rise timestamp is at least
`RESET_HIGH_MIN_MS_BEFORE_INT = 80`; in particular an edge arriving
before power-good has ever asserted is disqualified. -/
theorem accepted_edge_qualifies_iff (s : St) (now : Nat)
    (h : debounceReject (now % M) s.isrLast = false) :
    ((onIntFalling s now).doKillFlag = true ↔
      s.resetHighSinceMs ≠ 0 ∧
        RESET_HIGH_MIN_MS_BEFORE_INT ≤ wsub (now % M) s.resetHighSinceMs) ∧
    (s.resetHighSinceMs = 0 → (onIntFalling s now).doKillFlag = false) ∧
    (onIntFalling s now).intPending = true := by
  rw [onIntFalling_accepted s now h]
  refine ⟨?_, ?_, rfl⟩
  · simp [highLongEnough]
  · intro h0
    simp [highLongEnough, h0]

/-- Witness for C1: at the concrete post-setup state (RESET rose at
t = 10), a fault edge at t = 100 (90 ms later) qualifies. -/
theorem accepted_edge_qualifies_iff_witness :
    (onIntFalling sampleIdle 100).doKillFlag = true ∧
      (onIntFalling sampleIdle 100).intPending = true := by
  have h := accepted_edge_qualifies_iff sampleIdle 100 (by decide)
  exact ⟨h.1.mpr (by decide), h.2.2⟩

/-- Claim C4: a raw falling edge with `now - lastAccepted < 30` (in
wrapping arithmetic) is discarded with no state change at all; an
accepted edge updates the last-accepted timestamp to `now` and publishes
exactly one event (pending flag set, timestamp overwritten); a second
edge within the debounce window of an accepted edge is fully discarded,
so two edges within 30 ms produce at most one event. -/
theorem debounce_discard_accept (s : St) (now : Nat) :
    (wsub (now % M) s.isrLast < INT_DEBOUNCE_MS → onIntFalling s now = s) ∧
    (¬ wsub (now % M) s.isrLast < INT_DEBOUNCE_MS →
      (onIntFalling s now).isrLast = now % M ∧
      (onIntFalling s now).intPending = true ∧
      (onIntFalling s now).intStampMs = now % M) ∧
    (∀ t2 : Nat, ¬ wsub (now % M) s.isrLast < INT_DEBOUNCE_MS →
      wsub (t2 % M) (now % M) < INT_DEBOUNCE_MS →
      onIntFalling (onIntFalling s now) t2 = onIntFalling s now) := by
  refine ⟨?_, ?_, ?_⟩
  · intro h
    exact onIntFalling_rejected s now (by simpa [debounceReject] using h)
  · intro h
    rw [onIntFalling_accepted s now (by simpa [debounceReject] using h)]
    exact ⟨rfl, rfl, rfl⟩
  · intro t2 h1 h2
    have hacc : debounceReject (now % M) s.isrLast = false := by
      simpa [debounceReject] using h1
    have hl : (onIntFalling s now).isrLast = now % M := by
      rw [onIntFalling_accepted s now hacc]
    refine onIntFalling_rejected _ t2 ?_
    rw [hl]
    simpa [debounceReject] using h2

/-- Witness for C4: the edge at t = 100 is accepted from the sample
state, and a chattering edge at t = 110 (10 ms later) is a no-op. -/
theorem debounce_discard_accept_witness :
    onIntFalling (onIntFalling sampleIdle 100) 110 = onIntFalling sampleIdle 100 :=
  (debounce_discard_accept sampleIdle 100).2.2 110 (by decide) (by decide)

/-- Claim C10: no startup-inhibit window exists in this variant: for
every accepted fault edge the qualifies flag equals the pure
duration test `highLongEnough` of the recorded rise timestamp and
`RESET_HIGH_MIN_MS_BEFORE_INT` alone, and a fault arriving 90 ms after
the rise — inside the 300 ms `STARTUP_GUARD_MS` window that a
startup-inhibit policy would impose — still qualifies. -/
theorem no_startup_inhibit_window (s : St) (now : Nat)
    (h : debounceReject (now % M) s.isrLast = false) :
    (onIntFalling s now).doKillFlag =
        highLongEnough (now % M) s.resetHighSinceMs ∧
    wsub 100 10 < STARTUP_GUARD_MS ∧
    highLongEnough 100 10 = true := by
  refine ⟨?_, by decide, by decide⟩
  rw [onIntFalling_accepted s now h]

/-- Witness for C10: concrete instance at the sample state. -/
theorem no_startup_inhibit_window_witness :
    (onIntFalling sampleIdle 100).doKillFlag =
      highLongEnough (100 % M) sampleIdle.resetHighSinceMs :=
  (no_startup_inhibit_window sampleIdle 100 (by decide)).1

theorem onIntFalling_kill_fields (s : St) (now : Nat) :
    (onIntFalling s now).killActive = s.killActive ∧
      (onIntFalling s now).killAssertAt = s.killAssertAt := by
  by_cases hd : debounceReject (now % M) s.isrLast = true
  · rw [onIntFalling_rejected s now hd]
    exact ⟨rfl, rfl⟩
  · rw [onIntFalling_accepted s now (by simpa using hd)]
    exact ⟨rfl, rfl⟩

theorem phase1_kill_fields (s : St) (now : Nat) (r : Bool) :
    (phase1 s now r).killActive = s.killActive ∧
      (phase1 s now r).killAssertAt = s.killAssertAt := by
  unfold phase1
  split <;> simp

theorem phase4_kill_fields (s : St) (now : Nat) :
    (phase4 s now).killActive = s.killActive ∧
      (phase4 s now).killAssertAt = s.killAssertAt := by
  unfold phase4
  split <;> simp

/-- Claim C2: while KILL is asserted, the poll releases it (sets the
state back to idle) exactly when `(now - since >= 800 AND RESET reads
low) OR (now - since >= 3000)`; a poll where neither condition holds
leaves the state entirely unchanged, and a releasing poll puts the pin
back to input-with-pull-up. -/
theorem kill_release_timing (s : St) (now : Nat) (r : Bool)
    (h : s.killActive = true) :
    ((phase3 s now r).killActive = false ↔
      (r = false ∧ KILL_MIN_HOLD_MS ≤ wsub now s.killAssertAt) ∨
        KILL_TIMEOUT_MS ≤ wsub now s.killAssertAt) ∧
    (killReleaseDue now s.killAssertAt (!r) = false → phase3 s now r = s) ∧
    ((phase3 s now r).killActive = false →
      (phase3 s now r).killPin = PinCfg.inputPullup) := by
  have hiff : killReleaseDue now s.killAssertAt (!r) = true ↔
      (r = false ∧ KILL_MIN_HOLD_MS ≤ wsub now s.killAssertAt) ∨
        KILL_TIMEOUT_MS ≤ wsub now s.killAssertAt := by
    cases r <;> simp [killReleaseDue]
  by_cases hd : killReleaseDue now s.killAssertAt (!r) = true
  · rw [phase3_release s now r h hd]
    refine ⟨iff_of_true rfl (hiff.mp hd), ?_, fun _ => rfl⟩
    intro hc
    rw [hc] at hd
    exact Bool.noConfusion hd
  · have hd0 : killReleaseDue now s.killAssertAt (!r) = false := by
      simpa using hd
    rw [phase3_hold s now r h hd0]
    refine ⟨iff_of_false (by simp [h]) (fun hr => hd (hiff.mpr hr)), fun _ => rfl, ?_⟩
    intro hc
    rw [h] at hc
    exact Bool.noConfusion hc

/-- Witness for C2: from the concrete asserted state (asserted at
t = 100), the poll at t = 3200 releases by the timeout disjunct. -/
theorem kill_release_timing_witness :
    (phase3 sampleActive 3200 true).killActive = false :=
  (kill_release_timing sampleActive 3200 true (by decide)).1.mpr (Or.inr (by decide))

/-- Claim C3: the only step that turns `g_killActive` from false to true
is a loop poll (section 2) that consumes a pending event whose qualify
flag is true; while already asserted, no step changes the assertion
timestamp, and consuming a qualifying event while asserted keeps the
state asserted with the held timestamp unchanged. -/
theorem kill_assert_only_by_qualifying_event (s : St) (st : Step) :
    (s.killActive = false → (applyStep s st).killActive = true →
      s.intPending = true ∧ s.doKillFlag = true ∧ ∃ now, st = Step.p2 now) ∧
    (s.killActive = true → (applyStep s st).killAssertAt = s.killAssertAt) ∧
    (s.killActive = true → ∀ now,
      (phase2 s now).killActive = true ∧
        (phase2 s now).killAssertAt = s.killAssertAt) := by
  refine ⟨?_, ?_, ?_⟩
  · intro hI hA
    cases st with
    | isr now =>
        rw [show applyStep s (Step.isr now) = onIntFalling s now from rfl,
          (onIntFalling_kill_fields s now).1, hI] at hA
        exact Bool.noConfusion hA
    | p1 now r =>
        rw [show applyStep s (Step.p1 now r) = phase1 s now r from rfl,
          (phase1_kill_fields s now r).1, hI] at hA
        exact Bool.noConfusion hA
    | p2 now =>
        rw [show applyStep s (Step.p2 now) = phase2 s now from rfl] at hA
        cases hp : s.intPending with
        | false =>
            rw [phase2_no_event s now hp, hI] at hA
            exact Bool.noConfusion hA
        | true =>
            cases hq : s.doKillFlag with
            | false =>
                rw [phase2_ignored s now hp hq] at hA
                simp [hI] at hA
            | true => exact ⟨rfl, rfl, now, rfl⟩
    | p3 now r =>
        rw [show applyStep s (Step.p3 now r) = phase3 s now r from rfl,
          phase3_idle s now r hI, hI] at hA
        exact Bool.noConfusion hA
    | p4 now =>
        rw [show applyStep s (Step.p4 now) = phase4 s now from rfl,
          (phase4_kill_fields s now).1, hI] at hA
        exact Bool.noConfusion hA
  · intro hA
    cases st with
    | isr now => exact (onIntFalling_kill_fields s now).2
    | p1 now r => exact (phase1_kill_fields s now r).2
    | p2 now =>
        rw [show applyStep s (Step.p2 now) = phase2 s now from rfl]
        cases hp : s.intPending with
        | false => rw [phase2_no_event s now hp]
        | true =>
            cases hq : s.doKillFlag with
            | false => rw [phase2_ignored s now hp hq]
            | true => rw [phase2_already_active s now hp hq hA]
    | p3 now r =>
        rw [show applyStep s (Step.p3 now r) = phase3 s now r from rfl]
        by_cases hd : killReleaseDue now s.killAssertAt (!r) = true
        · rw [phase3_release s now r hA hd]
        · rw [phase3_hold s now r hA (by simpa using hd)]
    | p4 now => exact (phase4_kill_fields s now).2
  · intro hA now
    cases hp : s.intPending with
    | false => rw [phase2_no_event s now hp]; exact ⟨hA, rfl⟩
    | true =>
        cases hq : s.doKillFlag with
        | false => rw [phase2_ignored s now hp hq]; exact ⟨hA, rfl⟩
        | true => rw [phase2_already_active s now hp hq hA]; exact ⟨hA, rfl⟩

/-- Witness for C3: at the concrete pending state the consuming poll is
the asserting one, and re-consuming while asserted holds the timestamp. -/
theorem kill_assert_only_by_qualifying_event_witness :
    samplePending.intPending = true ∧ samplePending.doKillFlag = true ∧
      (∃ now, Step.p2 100 = Step.p2 now) ∧
      (phase2 sampleActive 500).killAssertAt = sampleActive.killAssertAt := by
  have h1 := (kill_assert_only_by_qualifying_event samplePending (Step.p2 100)).1
    (by decide) (by decide)
  have h2 := (kill_assert_only_by_qualifying_event sampleActive (Step.p2 500)).2.2
    (by decide) 500
  exact ⟨h1.1, h1.2.1, h1.2.2, h2.2⟩

/-- The KILL pin configuration is determined by the kill state: released
(input with pull-up) when idle, driven low when asserted. -/
def KillPinInv (s : St) : Prop :=
  s.killPin = (if s.killActive then PinCfg.outputLow else PinCfg.inputPullup)

theorem killPinInv_step (s : St) (st : Step) (h : KillPinInv s) :
    KillPinInv (applyStep s st) := by
  have hs : ∀ t : St, t.killPin = s.killPin → t.killActive = s.killActive →
      KillPinInv t := by
    intro t h1 h2
    unfold KillPinInv at h ⊢
    rw [h1, h2]
    exact h
  cases st with
  | isr now =>
      show KillPinInv (onIntFalling s now)
      by_cases hd : debounceReject (now % M) s.isrLast = true
      · rw [onIntFalling_rejected s now hd]
        exact h
      · rw [onIntFalling_accepted s now (by simpa using hd)]
        exact hs _ rfl rfl
  | p1 now r =>
      show KillPinInv (phase1 s now r)
      unfold phase1
      split
      · exact hs _ rfl rfl
      · exact h
  | p2 now =>
      show KillPinInv (phase2 s now)
      cases hp : s.intPending with
      | false =>
          rw [phase2_no_event s now hp]
          exact h
      | true =>
          cases hq : s.doKillFlag with
          | false =>
              rw [phase2_ignored s now hp hq]
              exact hs _ rfl rfl
          | true =>
              cases hA : s.killActive with
              | false =>
                  rw [phase2_assert s now hp hq hA]
                  unfold KillPinInv
                  simp
              | true =>
                  rw [phase2_already_active s now hp hq hA]
                  exact hs _ rfl rfl
  | p3 now r =>
      show KillPinInv (phase3 s now r)
      cases hA : s.killActive with
      | false =>
          rw [phase3_idle s now r hA]
          exact h
      | true =>
          by_cases hd : killReleaseDue now s.killAssertAt (!r) = true
          · rw [phase3_release s now r hA hd]
            unfold KillPinInv
            simp
          · rw [phase3_hold s now r hA (by simpa using hd)]
            exact h
  | p4 now =>
      show KillPinInv (phase4 s now)
      unfold phase4
      split
      · exact hs _ rfl rfl
      · exact h

theorem killPinInv_run (s : St) (l : List Step) (h : KillPinInv s) :
    KillPinInv (run s l) := by
  induction l generalizing s with
  | nil => exact h
  | cons st t ih => exact ih (applyStep s st) (killPinInv_step s st h)

/-- Claim C5: in every state reachable from setup, the KILL pin is
input-with-pull-up exactly when the kill state is idle and driven low
exactly when it is asserted; in particular the pin is never in the
driven-high configuration. -/
theorem kill_pin_never_driven_high (now0 : Nat) (r0 i0 : Bool) (l : List Step) :
    (run (setupState now0 r0 i0) l).killPin =
      (if (run (setupState now0 r0 i0) l).killActive then PinCfg.outputLow
        else PinCfg.inputPullup) ∧
    (run (setupState now0 r0 i0) l).killPin ≠ PinCfg.outputHigh := by
  have h0 : KillPinInv (setupState now0 r0 i0) := by
    unfold KillPinInv setupState
    simp
  have h := killPinInv_run (setupState now0 r0 i0) l h0
  unfold KillPinInv at h
  refine ⟨h, ?_⟩
  rw [h]
  split <;> simp

/-- Witness for C5: concrete run through assert and release. -/
theorem kill_pin_never_driven_high_witness :
    (run (setupState 10 true false) [Step.isr 100, Step.p2 100, Step.p3 3200 true]).killPin ≠
      PinCfg.outputHigh :=
  (kill_pin_never_driven_high 10 true false [Step.isr 100, Step.p2 100, Step.p3 3200 true]).2

/-- Claim C6: if the timeout cap fires (`now - since >= 3000`) while the
RESET line still reads high, the poll releases KILL anyway (state idle,
pin back to input-with-pull-up), records the release line followed by
the stuck-RESET warning, and the condition is not fatal: every later
poll of the release logic behaves as the ordinary idle no-op. -/
theorem timeout_release_warns_and_continues (s : St) (now : Nat)
    (hA : s.killActive = true)
    (hT : KILL_TIMEOUT_MS ≤ wsub now s.killAssertAt) :
    (phase3 s now true).killActive = false ∧
    (phase3 s now true).killPin = PinCfg.inputPullup ∧
    (phase3 s now true).log =
      LogEvent.warnStuckReset ::
        LogEvent.killReleased (now % M) (wsub now s.killAssertAt) true :: s.log ∧
    (∀ n2 r2, phase3 (phase3 s now true) n2 r2 = phase3 s now true) := by
  have hd : killReleaseDue now s.killAssertAt (!true) = true := by
    simp [killReleaseDue, hT]
  rw [phase3_release s now true hA hd]
  refine ⟨rfl, rfl, by simp, ?_⟩
  intro n2 r2
  exact phase3_idle _ n2 r2 rfl

/-- Witness for C6: the concrete asserted state at the timeout poll. -/
theorem timeout_release_warns_and_continues_witness :
    (phase3 sampleActive 3200 true).killActive = false ∧
      (phase3 sampleActive 3200 true).killPin = PinCfg.inputPullup := by
  have h := timeout_release_warns_and_continues sampleActive 3200 (by decide) (by decide)
  exact ⟨h.1, h.2.1⟩

theorem onIntFalling_tracker_fields (s : St) (now : Nat) :
    (onIntFalling s now).resetHighSinceMs = s.resetHighSinceMs ∧
      (onIntFalling s now).lastReset = s.lastReset := by
  by_cases hd : debounceReject (now % M) s.isrLast = true
  · rw [onIntFalling_rejected s now hd]
    exact ⟨rfl, rfl⟩
  · rw [onIntFalling_accepted s now (by simpa using hd)]
    exact ⟨rfl, rfl⟩

theorem phase2_tracker_fields (s : St) (now : Nat) :
    (phase2 s now).resetHighSinceMs = s.resetHighSinceMs ∧
      (phase2 s now).lastReset = s.lastReset := by
  cases hp : s.intPending with
  | false =>
      rw [phase2_no_event s now hp]
      exact ⟨rfl, rfl⟩
  | true =>
      cases hq : s.doKillFlag with
      | false =>
          rw [phase2_ignored s now hp hq]
          exact ⟨rfl, rfl⟩
      | true =>
          cases hA : s.killActive with
          | false =>
              rw [phase2_assert s now hp hq hA]
              exact ⟨rfl, rfl⟩
          | true =>
              rw [phase2_already_active s now hp hq hA]
              exact ⟨rfl, rfl⟩

theorem phase3_tracker_fields (s : St) (now : Nat) (r : Bool) :
    (phase3 s now r).resetHighSinceMs = s.resetHighSinceMs ∧
      (phase3 s now r).lastReset = s.lastReset := by
  cases hA : s.killActive with
  | false =>
      rw [phase3_idle s now r hA]
      exact ⟨rfl, rfl⟩
  | true =>
      by_cases hd : killReleaseDue now s.killAssertAt (!r) = true
      · rw [phase3_release s now r hA hd]
        exact ⟨rfl, rfl⟩
      · rw [phase3_hold s now r hA (by simpa using hd)]
        exact ⟨rfl, rfl⟩

theorem phase4_tracker_fields (s : St) (now : Nat) :
    (phase4 s now).resetHighSinceMs = s.resetHighSinceMs ∧
      (phase4 s now).lastReset = s.lastReset := by
  unfold phase4
  split <;> simp

/-- The spec invariant of the duration tracker: the rise timestamp is
present (not the `0` sentinel) iff the recorded level is high. -/
def TrackerInv (s : St) : Prop :=
  s.resetHighSinceMs ≠ 0 ↔ s.lastReset = true

/-- A step whose `millis()` sample cannot collide with the `0` sentinel
when it stamps a rise: every RESET-high poll samples a nonzero 32-bit
millisecond value. -/
def stepTimeOk : Step → Bool
  | Step.p1 now r => !r || (now % M != 0)
  | _ => true

theorem trackerInv_step (s : St) (st : Step) (hok : stepTimeOk st = true)
    (h : TrackerInv s) : TrackerInv (applyStep s st) := by
  cases st with
  | isr now =>
      have hf := onIntFalling_tracker_fields s now
      show TrackerInv (onIntFalling s now)
      unfold TrackerInv at h ⊢
      rw [hf.1, hf.2]
      exact h
  | p1 now r =>
      show TrackerInv (phase1 s now r)
      unfold phase1
      split
      · cases r with
        | false =>
            unfold TrackerInv
            simp
        | true =>
            have hz : now % M ≠ 0 := by simpa [stepTimeOk] using hok
            unfold TrackerInv
            simp [hz]
      · exact h
  | p2 now =>
      have hf := phase2_tracker_fields s now
      show TrackerInv (phase2 s now)
      unfold TrackerInv at h ⊢
      rw [hf.1, hf.2]
      exact h
  | p3 now r =>
      have hf := phase3_tracker_fields s now r
      show TrackerInv (phase3 s now r)
      unfold TrackerInv at h ⊢
      rw [hf.1, hf.2]
      exact h
  | p4 now =>
      have hf := phase4_tracker_fields s now
      show TrackerInv (phase4 s now)
      unfold TrackerInv at h ⊢
      rw [hf.1, hf.2]
      exact h

theorem trackerInv_run (s : St) (l : List Step)
    (hl : ∀ st ∈ l, stepTimeOk st = true) (h : TrackerInv s) :
    TrackerInv (run s l) := by
  induction l generalizing s with
  | nil => exact h
  | cons st t ih =>
      exact ih (applyStep s st) (fun x hx => hl x (List.mem_cons_of_mem st hx))
        (trackerInv_step s st (hl st (List.mem_cons_self st t)) h)

/-- Counterexample to claim C7 as stated: if the recorded level rises at
a poll whose 32-bit millisecond sample is 0 (here true time `2^32`, i.e.
the instant the counter rolls over), the code stamps
`g_resetHighSinceMs = 0`, which is the None sentinel, so the level is
recorded high while the rise timestamp reads as absent. -/
theorem tracker_invariant_fails_at_rollover_rise :
    (phase1 (setupState 5 false false) 4294967296 true).lastReset = true ∧
    (phase1 (setupState 5 false false) 4294967296 true).resetHighSinceMs = 0 ∧
    ¬ TrackerInv (phase1 (setupState 5 false false) 4294967296 true) := by
  refine ⟨by decide, by decide, ?_⟩
  intro hIff
  exact hIff.mpr (by decide) (by decide)

/-- Claim C7 (amended): provided every RESET-high poll samples `millis()`
at a nonzero 32-bit value (the sentinel collision of the counterexample
is excluded), every reachable state satisfies `g_resetHighSinceMs ≠ 0`
iff `g_lastReset`; moreover the timestamp is stamped with the current
time exactly at the false→true transition of the recorded level, cleared
to `0` exactly at the true→false transition, and no other operation
touches `g_resetHighSinceMs` or `g_lastReset`. -/
theorem tracker_invariant_amended (now0 : Nat) (r0 i0 : Bool) (l : List Step)
    (h0 : r0 = true → now0 % M ≠ 0)
    (hl : ∀ st ∈ l, stepTimeOk st = true) :
    TrackerInv (run (setupState now0 r0 i0) l) ∧
    (∀ s : St, ∀ now : Nat,
      (s.lastReset = false → (phase1 s now true).resetHighSinceMs = now % M ∧
        (phase1 s now true).lastReset = true) ∧
      (s.lastReset = true → (phase1 s now false).resetHighSinceMs = 0 ∧
        (phase1 s now false).lastReset = false) ∧
      (phase1 s now s.lastReset = s) ∧
      ((onIntFalling s now).resetHighSinceMs = s.resetHighSinceMs ∧
        (onIntFalling s now).lastReset = s.lastReset) ∧
      ((phase2 s now).resetHighSinceMs = s.resetHighSinceMs ∧
        (phase2 s now).lastReset = s.lastReset) ∧
      (∀ r, (phase3 s now r).resetHighSinceMs = s.resetHighSinceMs ∧
        (phase3 s now r).lastReset = s.lastReset) ∧
      ((phase4 s now).resetHighSinceMs = s.resetHighSinceMs ∧
        (phase4 s now).lastReset = s.lastReset)) := by
  constructor
  · apply trackerInv_run _ l hl
    unfold TrackerInv setupState
    cases r0 with
    | false => simp
    | true => simp [h0 rfl]
  · intro s now
    refine ⟨?_, ?_, ?_, onIntFalling_tracker_fields s now, phase2_tracker_fields s now,
      fun r => phase3_tracker_fields s now r, phase4_tracker_fields s now⟩
    · intro hL
      unfold phase1
      simp [hL]
    · intro hL
      unfold phase1
      simp [hL]
    · unfold phase1
      simp

/-- Witness for the amended C7: a concrete run with a fall, an ISR edge
and a rise at t = 200. -/
theorem tracker_invariant_amended_witness :
    TrackerInv (run (setupState 5 true false)
      [Step.p1 40 false, Step.isr 100, Step.p1 200 true]) :=
  (tracker_invariant_amended 5 true false
    [Step.p1 40 false, Step.isr 100, Step.p1 200 true] (by decide) (by decide)).1

theorem wsub_elapsed (T1 T2 : Nat) (h1 : T1 ≤ T2) (h2 : T2 - T1 < M) :
    wsub (T2 % M) (T1 % M) = T2 - T1 := by
  unfold M at h2
  unfold wsub M
  omega

/-- Claim C8: every timing decision of the program — the debounce test,
the RESET continuous-high duration test, the KILL hold/timeout release
test and the periodic status test — is a wrapping difference of two
timestamps compared against a duration, and therefore computes the true
elapsed-time comparison even across rollover of the 32-bit millisecond
counter, whenever the true elapsed time itself is below `2^32` ms. -/
theorem timing_comparisons_rollover_safe (T1 T2 : Nat) (r : Bool)
    (h1 : T1 ≤ T2) (h2 : T2 - T1 < M) :
    debounceReject (T2 % M) (T1 % M) = decide (T2 - T1 < INT_DEBOUNCE_MS) ∧
    (T1 % M ≠ 0 →
      highLongEnough (T2 % M) (T1 % M) =
        decide (RESET_HIGH_MIN_MS_BEFORE_INT ≤ T2 - T1)) ∧
    killReleaseDue (T2 % M) (T1 % M) r =
      ((r && decide (KILL_MIN_HOLD_MS ≤ T2 - T1))
        || decide (KILL_TIMEOUT_MS ≤ T2 - T1)) ∧
    reportDue (T2 % M) (T1 % M) = decide (1000 ≤ T2 - T1) := by
  have e := wsub_elapsed T1 T2 h1 h2
  refine ⟨?_, ?_, ?_, ?_⟩
  · simp [debounceReject, e]
  · intro hp
    have hb : (T1 % M != 0) = true := by simpa using hp
    simp [highLongEnough, e, hb]
  · simp [killReleaseDue, e]
  · simp [reportDue, e]

/-- Witness for C8: a debounce decision straddling the counter rollover
(true times `2^32 - 6` and `2^32 + 9`, 15 ms apart) still reads as
"within the debounce window". -/
theorem timing_comparisons_rollover_safe_witness :
    debounceReject (4294967305 % M) (4294967290 % M) = true := by
  have h := (timing_comparisons_rollover_safe 4294967290 4294967305 true
    (by decide) (by decide)).1
  rw [h]
  decide

theorem mrun_cons (s : DSt) (x : MStep) (l : List MStep) :
    mrun s (x :: l) = mrun (mstep s x) l := rfl

theorem mrun_append (s : DSt) (l1 l2 : List MStep) :
    mrun s (l1 ++ l2) = mrun (mrun s l1) l2 := by
  simp [mrun, List.foldl_append]

theorem mrun_isr_disabled (s : DSt) (h : s.intEnabled = false) (l : List Nat) :
    mrun s (l.map MStep.isr) = s := by
  induction l with
  | nil => rfl
  | cons x t ih =>
      have hx : mstep s (MStep.isr x) = s := by
        show isrG s x = s
        unfold isrG
        simp [h]
      show mrun (mstep s (MStep.isr x)) (t.map MStep.isr) = s
      rw [hx]
      exact ih

theorem isrG_coherent (s : DSt) (now : Nat) (h : Coherent s) :
    Coherent (isrG s now) := by
  unfold Coherent at h ⊢
  unfold isrG
  by_cases he : s.intEnabled = false
  · simp [he, h]
  · simp only [he, if_false]
    by_cases hd : debounceReject (now % M) s.isrLast = true
    · simp [hd, h]
    · simp [hd]

theorem mrun_isrs_coherent (s : DSt) (h : Coherent s) (l : List Nat) :
    Coherent (mrun s (l.map MStep.isr)) := by
  induction l generalizing s with
  | nil => exact h
  | cons x t ih => exact ih (isrG s x) (isrG_coherent s x h)

theorem isrG_regs (s : DSt) (now : Nat) :
    (isrG s now).regFlag = s.regFlag ∧ (isrG s now).regFlagSrc = s.regFlagSrc ∧
      (isrG s now).regStamp = s.regStamp ∧
      (isrG s now).regStampSrc = s.regStampSrc := by
  unfold isrG
  by_cases he : s.intEnabled = false
  · simp [he]
  · simp only [he, if_false]
    by_cases hd : debounceReject (now % M) s.isrLast = true
    · simp [hd]
    · simp [hd]

theorem mrun_isrs_regs (s : DSt) (l : List Nat) :
    (mrun s (l.map MStep.isr)).regFlag = s.regFlag ∧
      (mrun s (l.map MStep.isr)).regFlagSrc = s.regFlagSrc ∧
      (mrun s (l.map MStep.isr)).regStamp = s.regStamp ∧
      (mrun s (l.map MStep.isr)).regStampSrc = s.regStampSrc := by
  induction l generalizing s with
  | nil => exact ⟨rfl, rfl, rfl, rfl⟩
  | cons x t ih =>
      have hx := isrG_regs s x
      have ht := ih (isrG s x)
      exact ⟨ht.1.trans hx.1, ht.2.1.trans hx.2.1,
        ht.2.2.1.trans hx.2.2.1, ht.2.2.2.trans hx.2.2.2⟩

theorem consume_snapshot_core (s1 : DSt) (b c : List Nat) (rest : List MStep) :
    mrun s1 (MStep.disableInts ::
      (b.map MStep.isr ++ (MStep.readFlag ::
        (c.map MStep.isr ++ (MStep.readStamp :: MStep.clearPending :: MStep.enableInts ::
          rest))))) =
      mrun { s1 with intEnabled := true, intPending := false,
                     regFlag := s1.doKillFlag, regFlagSrc := s1.flagSrc,
                     regStamp := s1.intStampMs, regStampSrc := s1.stampSrc } rest := by
  rw [mrun_cons, mrun_append, mrun_isr_disabled (mstep s1 MStep.disableInts) rfl b,
    mrun_cons, mrun_append,
    mrun_isr_disabled (mstep (mstep s1 MStep.disableInts) MStep.readFlag) rfl c,
    mrun_cons, mrun_cons, mrun_cons]
  rfl

/-- A concrete coherent detector state: RESET rose at t = 10, interrupts
enabled, mailbox empty. -/
def sampleDSt : DSt :=
  { intPending := false
    intStampMs := 0
    doKillFlag := false
    resetHighSinceMs := 10
    isrLast := 0
    eventCtr := 0
    flagSrc := 0
    stampSrc := 0
    intEnabled := true
    regFlag := false
    regFlagSrc := 0
    regStamp := 0
    regStampSrc := 0 }

/-- Claim C9: for every interleaving of ISR arrivals with the consume
sequence (arrivals `a` before `noInterrupts()`, `b` and `c` attempted
inside the critical section — where the disabled-interrupt state makes
them no-ops — and `d` after `interrupts()`), the flag and the timestamp
the loop latches are the fields of the single state at the
`noInterrupts()` boundary, their ghost source tags agree (both values
were written together by one ISR event, never a mix of two events), and
the pending flag is cleared within the same critical section. -/
theorem consume_atomic_snapshot (s : DSt) (a b c d : List Nat) (h : Coherent s) :
    (mrun s (consumeSchedule a b c d)).regFlag =
        (mrun s (a.map MStep.isr)).doKillFlag ∧
    (mrun s (consumeSchedule a b c d)).regStamp =
        (mrun s (a.map MStep.isr)).intStampMs ∧
    (mrun s (consumeSchedule a b c d)).regFlagSrc =
        (mrun s (consumeSchedule a b c d)).regStampSrc ∧
    (mrun s (consumeSchedule a b c [])).intPending = false := by
  have hsplit : ∀ e : List Nat, mrun s (consumeSchedule a b c e) =
      mrun { mrun s (a.map MStep.isr) with
               intEnabled := true, intPending := false,
               regFlag := (mrun s (a.map MStep.isr)).doKillFlag,
               regFlagSrc := (mrun s (a.map MStep.isr)).flagSrc,
               regStamp := (mrun s (a.map MStep.isr)).intStampMs,
               regStampSrc := (mrun s (a.map MStep.isr)).stampSrc }
        (e.map MStep.isr) := by
    intro e
    unfold consumeSchedule
    rw [mrun_append, consume_snapshot_core]
  have hco : Coherent (mrun s (a.map MStep.isr)) := mrun_isrs_coherent s h a
  have hregs := mrun_isrs_regs
    { mrun s (a.map MStep.isr) with
        intEnabled := true, intPending := false,
        regFlag := (mrun s (a.map MStep.isr)).doKillFlag,
        regFlagSrc := (mrun s (a.map MStep.isr)).flagSrc,
        regStamp := (mrun s (a.map MStep.isr)).intStampMs,
        regStampSrc := (mrun s (a.map MStep.isr)).stampSrc } d
  refine ⟨?_, ?_, ?_, ?_⟩
  · rw [hsplit d, hregs.1]
  · rw [hsplit d, hregs.2.2.1]
  · rw [hsplit d, hregs.2.1, hregs.2.2.2]
    exact hco
  · rw [hsplit []]
    rfl

/-- Witness for C9: a concrete schedule with one accepted edge before
the critical section and one after it. -/
theorem consume_atomic_snapshot_witness :
    (mrun sampleDSt (consumeSchedule [100] [] [] [200])).regFlagSrc =
      (mrun sampleDSt (consumeSchedule [100] [] [] [200])).regStampSrc :=
  (consume_atomic_snapshot sampleDSt [100] [] [] [200] rfl).2.2.1

end TPS3424
